import Mathlib

/-!
Shallow embedding of `geozero-shp/src/reader.rs`: the geometry iterator
(`ShapeIterator`), the combined feature iterator (`ShapeRecordIterator`)
and the `Reader` that builds them.

External collaborators of the excerpt (the shape record decoder
`read_shape` from `shp_reader.rs`, the header decoder from `header.rs`,
the dbase attribute reader, and the geozero processor traits) are modelled
abstractly, from the spec, as sequences of call outcomes and as an
event-emitting capability.  The observable effect of driving the processor
is returned explicitly as a list of events.
-/

deriving instance DecidableEq for Except

namespace GeozeroShp

/-- Callback events observed by the driven feature processor: the lifecycle
calls of the protocol, the per-property value callbacks (tagged by a
number), and the per-geometry coordinate callbacks (tagged by a number). -/
inductive Event where
  | dataset_begin
  | dataset_end
  | feature_begin (n : Nat)
  | feature_end (n : Nat)
  | properties_begin
  | properties_end
  | geometry_begin
  | geometry_end
  | property (n : Nat)
  | geom (n : Nat)
deriving DecidableEq

/-- Error kinds of the reader (`crate::Error`).  Decode errors carry a
numeric tag so that distinct failures stay distinguishable in the model. -/
inductive Error where
  | IoError
  | ShpError (n : Nat)
  | DbaseError (n : Nat)
  | GeozeroError (n : Nat)
  | MissingDbf
deriving DecidableEq

/-- Per-shape record header (`shp_reader::RecordHeader`): the record number
and the content length `record_size` in 16-bit words. -/
structure RecordHeader where
  record_number : Nat
  record_size : Nat
deriving DecidableEq

/-- Modelled from the spec: the fixed byte size of a record header
(`RecordHeader::SIZE`, defined in `shp_reader.rs`, outside the excerpt);
the shapefile record header is 8 bytes. -/
def RecordHeader.SIZE : Nat := 8

/-- Modelled from the spec: the fixed byte size of the geometry stream's
file header (`header::HEADER_SIZE`, defined outside the excerpt); the
shapefile fixed header is 100 bytes. -/
def HEADER_SIZE : Nat := 100

/-- State of `ShapeIterator` (reader.rs:11-16): the geometry source, the
current byte position, and the total byte length (already in bytes, as set
by `Reader::iter_geometries`).

Modelled from the spec: the external `read_shape` decoder either fails or
emits geometry coordinate callbacks and returns the record header, so the
geometry source is the sequence of outcomes of successive `read_shape`
calls, each a pair of the emitted coordinate callbacks and the result; an
exhausted byte source makes `read_shape` fail with a truncation error.
The processor capability lives inside the Rust struct; here its observable
effect is the event list returned by each step. -/
structure ShapeIterator where
  source : List (List Nat × Except Error RecordHeader)
  current_pos : Nat
  file_length : Nat
deriving DecidableEq

/-- One step of `ShapeIterator::next` (reader.rs:21-33): yields nothing
once `current_pos >= file_length`; otherwise performs one `read_shape`
call, returning its error without advancing the cursor, or advancing the
cursor by `RecordHeader::SIZE + record_size * 2` on success.  Returns the
step result, the successor state, and the events emitted during the call. -/
def ShapeIterator.next (s : ShapeIterator) :
    Option (Except Error Unit) × ShapeIterator × List Event :=
  if s.file_length ≤ s.current_pos then
    (none, s, [])
  else
    match s.source with
    | [] => (some (.error .IoError), s, [])
    | (gevs, .error e) :: rest =>
        (some (.error e), { s with source := rest }, gevs.map Event.geom)
    | (gevs, .ok hdr) :: rest =>
        (some (.ok ()),
          { s with
            source := rest,
            current_pos := s.current_pos + RecordHeader.SIZE + hdr.record_size * 2 },
          gevs.map Event.geom)

/-- Modelled from the spec: a dbase attribute record together with the
behaviour of the external `process_properties` call that drives it through
the processor's property-value callbacks: the property callbacks it emits
and the result it returns. -/
structure Record where
  propEvents : List Nat
  propResult : Except Nat Unit
deriving DecidableEq

/-- Modelled from the spec: the driven feature processor as a capability.
Lifecycle callbacks may fail; `lifecycleErr` says which calls return an
error (the caller in the source discards these results with `.ok()`). -/
structure Processor where
  lifecycleErr : Event → Bool

/-- One lifecycle callback invocation: the emitted event together with the
result the callback returns. -/
def Processor.call (p : Processor) (e : Event) : List Event × Except Error Unit :=
  ([e], if p.lifecycleErr e then .error (.GeozeroError 0) else .ok ())

/-- State of `ShapeRecordIterator` (reader.rs:38-42): the geometry
iterator, the dbase record sequence (each element an outcome of the
external dbase reader), and the feature ordinal counter. -/
structure ShapeRecordIterator where
  shape_iter : ShapeIterator
  dbf_reader : List (Except Nat Record)
  featno : Nat

/-- One step of `ShapeRecordIterator::next` (reader.rs:51-87).  The
lifecycle callback results are invoked and discarded (`.ok()` in the
source): only the event component of each call is kept.  Errors from the
dbase reader, from `process_properties`, and from the geometry step are
returned; the terminating branches return nothing. -/
def ShapeRecordIterator.next (p : Processor) (s : ShapeRecordIterator) :
    Option (Except Error Record) × ShapeRecordIterator × List Event :=
  let ev0 : List Event := if s.featno = 0 then (p.call .dataset_begin).1 else []
  match s.dbf_reader with
  | [] => (none, s, ev0 ++ (p.call .dataset_end).1)
  | .error e :: rest =>
      (some (.error (.DbaseError e)), { s with dbf_reader := rest }, ev0)
  | .ok rcd :: rest =>
      let ev1 := ev0 ++ (p.call (.feature_begin s.featno)).1 ++
        (p.call .properties_begin).1 ++ rcd.propEvents.map Event.property
      match rcd.propResult with
      | .error e =>
          (some (.error (.GeozeroError e)), { s with dbf_reader := rest }, ev1)
      | .ok _ =>
          let ev2 := ev1 ++ (p.call .properties_end).1 ++ (p.call .geometry_begin).1
          match s.shape_iter.next with
          | (none, si, gevs) =>
              (none, { s with shape_iter := si, dbf_reader := rest }, ev2 ++ gevs)
          | (some (.error e), si, gevs) =>
              (some (.error e), { s with shape_iter := si, dbf_reader := rest },
                ev2 ++ gevs)
          | (some (.ok _), si, gevs) =>
              (some (.ok rcd),
                { shape_iter := si, dbf_reader := rest, featno := s.featno + 1 },
                ev2 ++ gevs ++ (p.call .geometry_end).1 ++
                  (p.call (.feature_end s.featno)).1)

/-- Modelled from the spec: the parsed file header (`header::Header`,
outside the excerpt); only the declared file length in 16-bit words is
consumed by the excerpt. -/
structure Header where
  file_length : Nat
deriving DecidableEq

/-- One entry of the shape offset companion file (`shx_reader::ShapeIndex`,
outside the excerpt): offset and content length in 16-bit words. -/
structure ShapeIndex where
  offset : Nat
  record_size : Nat
deriving DecidableEq

/-- `Reader` (reader.rs:93-98): the geometry source, the parsed header,
and the optional offset-index and dbase collaborators. -/
structure Reader where
  source : List (List Nat × Except Error RecordHeader)
  header : Header
  shapes_index : Option (List ShapeIndex)
  dbf_reader : Option (List (Except Nat Record))

/-- `Reader::iter_geometries` (reader.rs:134-141): consumes the reader and
builds a `ShapeIterator` positioned at the fixed header size whose total
length is the header's declared word count doubled. -/
def Reader.iter_geometries (r : Reader) : ShapeIterator :=
  { source := r.source
    current_pos := HEADER_SIZE
    file_length := r.header.file_length * 2 }

/-- `Reader::read_records` (reader.rs:129-132): fails with `MissingDbf`
when no dbase source is attached, otherwise reads every record, wrapping
the first dbase error. -/
def Reader.read_records (r : Reader) : Except Error (List Record) :=
  match r.dbf_reader with
  | none => .error .MissingDbf
  | some recs =>
      recs.mapM fun x =>
        match x with
        | .ok rcd => .ok rcd
        | .error e => .error (Error.DbaseError e)

/-- `Reader::iter_features` (reader.rs:148-163): takes the dbase reader
out of the reader; with none attached it fails with `MissingDbf`, otherwise
it builds the combined iterator over `iter_geometries` with ordinal 0. -/
def Reader.iter_features (r : Reader) : Except Error ShapeRecordIterator :=
  match r.dbf_reader with
  | some d => .ok { shape_iter := r.iter_geometries, dbf_reader := d, featno := 0 }
  | none => .error .MissingDbf

/-- Result of driving a `ShapeIterator` until it yields nothing, bounded
by fuel: the step results, the cursor advance of each yielded step,
whether `next` returned nothing within the fuel, the final state, and all
events emitted along the way. -/
structure ShapeRun where
  results : List (Except Error Unit)
  advances : List Nat
  finished : Bool
  state : ShapeIterator
  events : List Event

/-- Drive `ShapeIterator.next` until it yields nothing, bounded by fuel. -/
def runShape : Nat → ShapeIterator → ShapeRun
  | 0, s => ⟨[], [], false, s, []⟩
  | n + 1, s =>
    match s.next with
    | (none, s1, evs) => ⟨[], [], true, s1, evs⟩
    | (some r, s1, evs) =>
      let rest := runShape n s1
      ⟨r :: rest.results, (s1.current_pos - s.current_pos) :: rest.advances,
        rest.finished, rest.state, evs ++ rest.events⟩

/-- How a run of the feature iterator ended: by attribute-sequence
exhaustion, by the geometry iterator exhausting mid-step, or by running
out of fuel. -/
inductive RunEnd where
  | byDbf
  | byGeom
  | fuel
deriving DecidableEq

/-- Result of driving a `ShapeRecordIterator` until it yields nothing
(the usual consumer loop, stopping at the first empty step), bounded by
fuel. -/
structure RecordRun where
  results : List (Except Error Record)
  ending : RunEnd
  state : ShapeRecordIterator
  events : List Event

/-- Drive `ShapeRecordIterator.next` until it yields nothing, bounded by
fuel. -/
def runRecord : Nat → Processor → ShapeRecordIterator → RecordRun
  | 0, _, s => ⟨[], .fuel, s, []⟩
  | n + 1, p, s =>
    match s.next p with
    | (none, s1, evs) =>
      ⟨[], if s.dbf_reader.isEmpty then .byDbf else .byGeom, s1, evs⟩
    | (some r, s1, evs) =>
      let rest := runRecord n p s1
      ⟨r :: rest.results, rest.ending, rest.state, evs ++ rest.events⟩

/-- Number of occurrences of an event in a trace. -/
def countE (e : Event) : List Event → Nat
  | [] => 0
  | x :: l => (if x = e then 1 else 0) + countE e l

theorem countE_append (e : Event) (l1 l2 : List Event) :
    countE e (l1 ++ l2) = countE e l1 + countE e l2 := by
  induction l1 with
  | nil => simp [countE]
  | cons x l ih => simp [countE, ih, Nat.add_assoc]

theorem countE_map_eq_zero {α : Type} (e : Event) (f : α → Event) (l : List α)
    (h : ∀ a, f a ≠ e) : countE e (l.map f) = 0 := by
  induction l with
  | nil => rfl
  | cons x l ih => simp [countE, ih, h x]

theorem ShapeIterator.next_of_done (s : ShapeIterator)
    (h : s.file_length ≤ s.current_pos) : s.next = (none, s, []) := by
  simp [ShapeIterator.next, h]

theorem ShapeIterator.next_none_inv (s s1 : ShapeIterator) (evs : List Event)
    (h : s.next = (none, s1, evs)) :
    s1 = s ∧ evs = [] ∧ s.file_length ≤ s.current_pos := by
  unfold ShapeIterator.next at h
  split at h
  case isTrue hle =>
    simp only [Prod.mk.injEq] at h
    exact ⟨h.2.1.symm, h.2.2.symm, hle⟩
  case isFalse hle =>
    split at h <;> simp at h

theorem ShapeIterator.next_ok_inv (s s1 : ShapeIterator) (evs : List Event)
    (h : s.next = (some (.ok ()), s1, evs)) :
    ∃ gevs hdr rest,
      s.source = (gevs, .ok hdr) :: rest ∧
      s1 = { s with
        source := rest,
        current_pos := s.current_pos + RecordHeader.SIZE + hdr.record_size * 2 } ∧
      evs = gevs.map Event.geom ∧ s.current_pos < s.file_length := by
  unfold ShapeIterator.next at h
  split at h
  case isTrue hle => simp at h
  case isFalse hle =>
    split at h
    · simp at h
    · simp at h
    case _ gevs hdr rest heq =>
      simp only [Prod.mk.injEq] at h
      exact ⟨gevs, hdr, rest, heq, h.2.1.symm, h.2.2.symm, Nat.lt_of_not_le hle⟩

theorem ShapeIterator.next_err_inv (s s1 : ShapeIterator) (e : Error)
    (evs : List Event) (h : s.next = (some (.error e), s1, evs)) :
    s1.current_pos = s.current_pos ∧ s1.file_length = s.file_length ∧
      s.current_pos < s.file_length := by
  unfold ShapeIterator.next at h
  split at h
  case isTrue hle => simp at h
  case isFalse hle =>
    split at h
    · simp only [Prod.mk.injEq] at h
      exact ⟨by rw [← h.2.1], by rw [← h.2.1], Nat.lt_of_not_le hle⟩
    · simp only [Prod.mk.injEq] at h
      exact ⟨by rw [← h.2.1], by rw [← h.2.1], Nat.lt_of_not_le hle⟩
    · simp at h

theorem ShapeIterator.next_some_inv (s s1 : ShapeIterator) (r : Except Error Unit)
    (evs : List Event) (h : s.next = (some r, s1, evs)) :
    s.current_pos ≤ s1.current_pos ∧ s1.file_length = s.file_length := by
  unfold ShapeIterator.next at h
  split at h
  case isTrue hle => simp at h
  case isFalse hle =>
    split at h <;> simp only [Prod.mk.injEq] at h <;>
      obtain ⟨-, h1, -⟩ := h <;> subst h1 <;> simp
    all_goals omega

theorem runShape_spec (n : Nat) : ∀ s : ShapeIterator,
    (runShape n s).state.current_pos = s.current_pos + (runShape n s).advances.sum ∧
    (runShape n s).state.file_length = s.file_length ∧
    ((runShape n s).finished = true →
      s.file_length ≤ (runShape n s).state.current_pos) := by
  induction n with
  | zero => intro s; simp [runShape]
  | succ n ih =>
    intro s
    rcases hs : s.next with ⟨o, s1, evs⟩
    cases o with
    | none =>
      obtain ⟨hs1, hevs, hle⟩ := ShapeIterator.next_none_inv s s1 evs hs
      subst hs1
      have e1 : runShape (n + 1) s1 = ⟨[], [], true, s1, evs⟩ := by
        simp [runShape, hs]
      rw [e1]
      exact ⟨rfl, rfl, fun _ => hle⟩
    | some r =>
      obtain ⟨hmono, hlen⟩ := ShapeIterator.next_some_inv s s1 r evs hs
      have h1 := (ih s1).1
      have h2 := (ih s1).2.1
      have h3 := (ih s1).2.2
      simp only [runShape, hs, List.sum_cons]
      refine ⟨by omega, by omega, fun hf => ?_⟩
      have := h3 hf
      omega

theorem ShapeRecordIterator.next_dbf_nil (p : Processor) (s : ShapeRecordIterator)
    (h : s.dbf_reader = []) :
    s.next p = (none, s,
      (if s.featno = 0 then [Event.dataset_begin] else []) ++ [Event.dataset_end]) := by
  simp [ShapeRecordIterator.next, h, Processor.call]

theorem ShapeRecordIterator.next_dbf_err (p : Processor) (s : ShapeRecordIterator)
    (d : Nat) (rest : List (Except Nat Record)) (h : s.dbf_reader = .error d :: rest) :
    s.next p = (some (.error (.DbaseError d)), { s with dbf_reader := rest },
      (if s.featno = 0 then [Event.dataset_begin] else [])) := by
  simp [ShapeRecordIterator.next, h, Processor.call]

theorem ShapeRecordIterator.next_prop_err (p : Processor) (s : ShapeRecordIterator)
    (rcd : Record) (rest : List (Except Nat Record)) (g : Nat)
    (h : s.dbf_reader = .ok rcd :: rest) (hp : rcd.propResult = .error g) :
    s.next p = (some (.error (.GeozeroError g)), { s with dbf_reader := rest },
      (if s.featno = 0 then [Event.dataset_begin] else []) ++
        [Event.feature_begin s.featno] ++ [Event.properties_begin] ++
        rcd.propEvents.map Event.property) := by
  simp [ShapeRecordIterator.next, h, hp, Processor.call]

theorem ShapeRecordIterator.next_geom_none (p : Processor) (s : ShapeRecordIterator)
    (rcd : Record) (rest : List (Except Nat Record)) (si : ShapeIterator)
    (gevs : List Event)
    (h : s.dbf_reader = .ok rcd :: rest) (hp : rcd.propResult = .ok ())
    (hg : s.shape_iter.next = (none, si, gevs)) :
    s.next p = (none, { s with shape_iter := si, dbf_reader := rest },
      (if s.featno = 0 then [Event.dataset_begin] else []) ++
        [Event.feature_begin s.featno] ++ [Event.properties_begin] ++
        rcd.propEvents.map Event.property ++
        [Event.properties_end] ++ [Event.geometry_begin] ++ gevs) := by
  simp [ShapeRecordIterator.next, h, hp, hg, Processor.call]

theorem ShapeRecordIterator.next_geom_err (p : Processor) (s : ShapeRecordIterator)
    (rcd : Record) (rest : List (Except Nat Record)) (e : Error) (si : ShapeIterator)
    (gevs : List Event)
    (h : s.dbf_reader = .ok rcd :: rest) (hp : rcd.propResult = .ok ())
    (hg : s.shape_iter.next = (some (.error e), si, gevs)) :
    s.next p = (some (.error e), { s with shape_iter := si, dbf_reader := rest },
      (if s.featno = 0 then [Event.dataset_begin] else []) ++
        [Event.feature_begin s.featno] ++ [Event.properties_begin] ++
        rcd.propEvents.map Event.property ++
        [Event.properties_end] ++ [Event.geometry_begin] ++ gevs) := by
  simp [ShapeRecordIterator.next, h, hp, hg, Processor.call]

theorem ShapeRecordIterator.next_geom_ok (p : Processor) (s : ShapeRecordIterator)
    (rcd : Record) (rest : List (Except Nat Record)) (si : ShapeIterator)
    (gevs : List Event)
    (h : s.dbf_reader = .ok rcd :: rest) (hp : rcd.propResult = .ok ())
    (hg : s.shape_iter.next = (some (.ok ()), si, gevs)) :
    s.next p = (some (.ok rcd), ⟨si, rest, s.featno + 1⟩,
      (if s.featno = 0 then [Event.dataset_begin] else []) ++
        [Event.feature_begin s.featno] ++ [Event.properties_begin] ++
        rcd.propEvents.map Event.property ++
        [Event.properties_end] ++ [Event.geometry_begin] ++ gevs ++
        [Event.geometry_end] ++ [Event.feature_end s.featno]) := by
  simp [ShapeRecordIterator.next, h, hp, hg, Processor.call]

theorem ShapeRecordIterator.next_indep (p q : Processor) (s : ShapeRecordIterator) :
    s.next p = s.next q := rfl

theorem ShapeRecordIterator.step_err_inv (p : Processor) (s : ShapeRecordIterator)
    (e : Error) (s1 : ShapeRecordIterator) (evs : List Event)
    (h : s.next p = (some (.error e), s1, evs)) :
    s1.featno = s.featno ∧
    ((∃ d rest, s.dbf_reader = .error d :: rest ∧ e = .DbaseError d) ∨
     (∃ rcd rest g, s.dbf_reader = .ok rcd :: rest ∧ rcd.propResult = .error g ∧
       e = .GeozeroError g) ∨
     (∃ rcd rest si gevs, s.dbf_reader = .ok rcd :: rest ∧ rcd.propResult = .ok () ∧
       s.shape_iter.next = (some (.error e), si, gevs))) := by
  rcases hd : s.dbf_reader with _ | ⟨x, rest⟩
  · rw [ShapeRecordIterator.next_dbf_nil p s hd] at h
    simp at h
  · rcases x with d | rcd
    · rw [ShapeRecordIterator.next_dbf_err p s d rest hd] at h
      simp only [Prod.mk.injEq, Option.some.injEq, Except.error.injEq] at h
      obtain ⟨h1, h2, -⟩ := h
      subst h2
      exact ⟨rfl, Or.inl ⟨d, rest, rfl, h1.symm⟩⟩
    · rcases hp : rcd.propResult with g | u
      · rw [ShapeRecordIterator.next_prop_err p s rcd rest g hd hp] at h
        simp only [Prod.mk.injEq, Option.some.injEq, Except.error.injEq] at h
        obtain ⟨h1, h2, -⟩ := h
        subst h2
        exact ⟨rfl, Or.inr (Or.inl ⟨rcd, rest, g, rfl, hp, h1.symm⟩)⟩
      · cases u
        rcases hg : s.shape_iter.next with ⟨o, si, gevs⟩
        cases o with
        | none =>
          rw [ShapeRecordIterator.next_geom_none p s rcd rest si gevs hd hp hg] at h
          simp at h
        | some r =>
          cases r with
          | error e2 =>
            rw [ShapeRecordIterator.next_geom_err p s rcd rest e2 si gevs hd hp hg] at h
            simp only [Prod.mk.injEq, Option.some.injEq, Except.error.injEq] at h
            obtain ⟨h1, h2, -⟩ := h
            subst h1
            subst h2
            exact ⟨rfl, Or.inr (Or.inr ⟨rcd, rest, si, gevs, rfl, hp, rfl⟩)⟩
          | ok u2 =>
            cases u2
            rw [ShapeRecordIterator.next_geom_ok p s rcd rest si gevs hd hp hg] at h
            simp at h

theorem ShapeRecordIterator.step_ok_inv (p : Processor) (s : ShapeRecordIterator)
    (rcd : Record) (s1 : ShapeRecordIterator) (evs : List Event)
    (h : s.next p = (some (.ok rcd), s1, evs)) :
    ∃ (rest : List (Except Nat Record)) (gl : List Nat) (si : ShapeIterator),
      s.dbf_reader = .ok rcd :: rest ∧ rcd.propResult = .ok () ∧
      s.shape_iter.next = (some (.ok ()), si, gl.map Event.geom) ∧
      s1 = ⟨si, rest, s.featno + 1⟩ ∧
      evs = (if s.featno = 0 then [Event.dataset_begin] else []) ++
        [Event.feature_begin s.featno] ++ [Event.properties_begin] ++
        rcd.propEvents.map Event.property ++ [Event.properties_end] ++
        [Event.geometry_begin] ++ gl.map Event.geom ++
        [Event.geometry_end] ++ [Event.feature_end s.featno] := by
  rcases hd : s.dbf_reader with _ | ⟨x, rest⟩
  · rw [ShapeRecordIterator.next_dbf_nil p s hd] at h
    simp at h
  · rcases x with d | rcd2
    · rw [ShapeRecordIterator.next_dbf_err p s d rest hd] at h
      simp at h
    · rcases hp : rcd2.propResult with g | u
      · rw [ShapeRecordIterator.next_prop_err p s rcd2 rest g hd hp] at h
        simp at h
      · cases u
        rcases hg : s.shape_iter.next with ⟨o, si, gevs⟩
        cases o with
        | none =>
          rw [ShapeRecordIterator.next_geom_none p s rcd2 rest si gevs hd hp hg] at h
          simp at h
        | some r =>
          cases r with
          | error e2 =>
            rw [ShapeRecordIterator.next_geom_err p s rcd2 rest e2 si gevs hd hp hg] at h
            simp at h
          | ok u2 =>
            cases u2
            rw [ShapeRecordIterator.next_geom_ok p s rcd2 rest si gevs hd hp hg] at h
            simp only [Prod.mk.injEq, Option.some.injEq, Except.ok.injEq] at h
            obtain ⟨h1, h2, h3⟩ := h
            subst h1
            obtain ⟨gl, hdr2, rest2, -, -, hgl, -⟩ :=
              ShapeIterator.next_ok_inv s.shape_iter si gevs hg
            subst hgl
            exact ⟨rest, gl, si, rfl, hp, rfl, h2.symm, h3.symm⟩

theorem ShapeRecordIterator.step_none_inv (p : Processor) (s : ShapeRecordIterator)
    (s1 : ShapeRecordIterator) (evs : List Event)
    (h : s.next p = (none, s1, evs)) :
    s.dbf_reader = [] ∨
    ∃ rcd rest, s.dbf_reader = .ok rcd :: rest ∧ rcd.propResult = .ok () ∧
      s.shape_iter.file_length ≤ s.shape_iter.current_pos := by
  rcases hd : s.dbf_reader with _ | ⟨x, rest⟩
  · exact Or.inl rfl
  · rcases x with d | rcd
    · rw [ShapeRecordIterator.next_dbf_err p s d rest hd] at h
      simp at h
    · rcases hp : rcd.propResult with g | u
      · rw [ShapeRecordIterator.next_prop_err p s rcd rest g hd hp] at h
        simp at h
      · cases u
        rcases hg : s.shape_iter.next with ⟨o, si, gevs⟩
        cases o with
        | none =>
          obtain ⟨-, -, hle⟩ := ShapeIterator.next_none_inv s.shape_iter si gevs hg
          exact Or.inr ⟨rcd, rest, rfl, hp, hle⟩
        | some r =>
          cases r with
          | error e2 =>
            rw [ShapeRecordIterator.next_geom_err p s rcd rest e2 si gevs hd hp hg] at h
            simp at h
          | ok u2 =>
            cases u2
            rw [ShapeRecordIterator.next_geom_ok p s rcd rest si gevs hd hp hg] at h
            simp at h

theorem ShapeIterator.next_isSome (s : ShapeIterator)
    (h : s.current_pos < s.file_length) : (s.next).1.isSome = true := by
  unfold ShapeIterator.next
  rw [if_neg (Nat.not_le_of_lt h)]
  rcases hsrc : s.source with _ | ⟨⟨gevs, res⟩, rest⟩
  · simp
  · rcases res with e2 | hdr <;> simp

theorem iter_features_featno (r : Reader) (it : ShapeRecordIterator)
    (hit : r.iter_features = .ok it) : it.featno = 0 := by
  unfold Reader.iter_features at hit
  rcases hr : r.dbf_reader with _ | d
  · rw [hr] at hit
    simp at hit
  · rw [hr] at hit
    simp only [Except.ok.injEq] at hit
    rw [← hit]

theorem ShapeRecordIterator.next_head (p : Processor) (s : ShapeRecordIterator)
    (h0 : s.featno = 0) : (s.next p).2.2.head? = some Event.dataset_begin := by
  rcases hd : s.dbf_reader with _ | ⟨x, rest⟩
  · rw [ShapeRecordIterator.next_dbf_nil p s hd]
    simp [h0]
  · rcases x with d | rcd
    · rw [ShapeRecordIterator.next_dbf_err p s d rest hd]
      simp [h0]
    · rcases hp : rcd.propResult with g | u
      · rw [ShapeRecordIterator.next_prop_err p s rcd rest g hd hp]
        simp [h0]
      · cases u
        rcases hg : s.shape_iter.next with ⟨o, si, gevs⟩
        cases o with
        | none =>
          rw [ShapeRecordIterator.next_geom_none p s rcd rest si gevs hd hp hg]
          simp [h0]
        | some r =>
          cases r with
          | error e =>
            rw [ShapeRecordIterator.next_geom_err p s rcd rest e si gevs hd hp hg]
            simp [h0]
          | ok u2 =>
            cases u2
            rw [ShapeRecordIterator.next_geom_ok p s rcd rest si gevs hd hp hg]
            simp [h0]

theorem countE_ite (e : Event) (c : Prop) [Decidable c] (l1 l2 : List Event) :
    countE e (if c then l1 else l2) = if c then countE e l1 else countE e l2 := by
  split <;> rfl

theorem countE_dataset_end_property (l : List Nat) :
    countE .dataset_end (l.map Event.property) = 0 :=
  countE_map_eq_zero _ _ l (fun a => by simp)

theorem countE_dataset_end_geom (l : List Nat) :
    countE .dataset_end (l.map Event.geom) = 0 :=
  countE_map_eq_zero _ _ l (fun a => by simp)

theorem countE_dataset_begin_property (l : List Nat) :
    countE .dataset_begin (l.map Event.property) = 0 :=
  countE_map_eq_zero _ _ l (fun a => by simp)

theorem countE_dataset_begin_geom (l : List Nat) :
    countE .dataset_begin (l.map Event.geom) = 0 :=
  countE_map_eq_zero _ _ l (fun a => by simp)

theorem runRecord_dataset_counts (n : Nat) : ∀ (s : ShapeRecordIterator) (p : Processor),
    (runRecord n p s).ending = .byDbf →
    (∀ x ∈ (runRecord n p s).results, x.isOk = true) →
    countE .dataset_end (runRecord n p s).events = 1 ∧
    countE .dataset_begin (runRecord n p s).events = (if s.featno = 0 then 1 else 0) ∧
    ∃ pre, (runRecord n p s).events = pre ++ [Event.dataset_end] := by
  induction n with
  | zero =>
    intro s p hend hok
    simp [runRecord] at hend
  | succ n ih =>
    intro s p hend hok
    rcases hs : s.next p with ⟨o, s1, evs⟩
    cases o with
    | none =>
      have hev : (runRecord (n + 1) p s).events = evs := by
        simp [runRecord, hs]
      have hed : (runRecord (n + 1) p s).ending =
          (if s.dbf_reader.isEmpty then RunEnd.byDbf else RunEnd.byGeom) := by
        simp [runRecord, hs]
      rw [hed] at hend
      have hdbf : s.dbf_reader = [] := by
        rcases hd : s.dbf_reader with _ | ⟨x, rest⟩
        · rfl
        · rw [hd] at hend
          simp at hend
      have hnil := ShapeRecordIterator.next_dbf_nil p s hdbf
      rw [hnil] at hs
      simp only [Prod.mk.injEq] at hs
      obtain ⟨-, -, hevs⟩ := hs
      rw [hev, ← hevs]
      refine ⟨?_, ?_, ?_⟩
      · by_cases hf : s.featno = 0 <;> simp [hf, countE_append, countE]
      · by_cases hf : s.featno = 0 <;> simp [hf, countE_append, countE]
      · exact ⟨if s.featno = 0 then [Event.dataset_begin] else [], rfl⟩
    | some r =>
      have hev : (runRecord (n + 1) p s).events = evs ++ (runRecord n p s1).events := by
        simp [runRecord, hs]
      have hed : (runRecord (n + 1) p s).ending = (runRecord n p s1).ending := by
        simp [runRecord, hs]
      have hrs : (runRecord (n + 1) p s).results = r :: (runRecord n p s1).results := by
        simp [runRecord, hs]
      rw [hed] at hend
      rw [hrs] at hok
      have hr : r.isOk = true := hok r (by simp)
      cases r with
      | error e => simp [Except.isOk, Except.toBool] at hr
      | ok rcd =>
        obtain ⟨rest, gl, si, hd, hp, hg, hs1, hevs⟩ :=
          ShapeRecordIterator.step_ok_inv p s rcd s1 evs hs
        have hok2 : ∀ x ∈ (runRecord n p s1).results, x.isOk = true := by
          intro x hx
          exact hok x (by simp [hx])
        obtain ⟨c1, c2, pre, hpre⟩ := ih s1 p hend hok2
        have hfe : s1.featno = s.featno + 1 := by rw [hs1]
        rw [hfe] at c2
        simp only [Nat.succ_ne_zero, if_neg] at c2
        rw [hev]
        refine ⟨?_, ?_, ?_⟩
        · rw [countE_append, hevs, c1]
          simp [countE_append, countE, countE_ite, countE_dataset_end_property,
            countE_dataset_end_geom]
        · rw [countE_append, hevs, c2]
          simp [countE_append, countE, countE_ite, countE_dataset_begin_property,
            countE_dataset_begin_geom]
        · rw [hpre]
          exact ⟨evs ++ pre, by rw [List.append_assoc]⟩

/-- C1 (amended): an iterator built by `Reader::iter_geometries` starts at
the fixed header size and its total length is the header's declared file
length doubled; every successful step advances the cursor by exactly
`RecordHeader::SIZE + record_size * 2`; when the run terminates, the header
size plus the sum of all per-step advances equals the final cursor
position, which is at least `file_length * 2` — but it can overshoot, so it
need not equal `file_length * 2`. -/
theorem iter_geometries_cursor (r : Reader) (n : Nat) :
    (r.iter_geometries).current_pos = HEADER_SIZE ∧
    (r.iter_geometries).file_length = r.header.file_length * 2 ∧
    (∀ (s s1 : ShapeIterator) (evs : List Event),
      s.next = (some (.ok ()), s1, evs) →
      ∃ (gevs : List Nat) (hdr : RecordHeader)
        (rest : List (List Nat × Except Error RecordHeader)),
        s.source = (gevs, .ok hdr) :: rest ∧
        s1.current_pos = s.current_pos + RecordHeader.SIZE + hdr.record_size * 2) ∧
    (runShape n r.iter_geometries).state.current_pos
      = HEADER_SIZE + (runShape n r.iter_geometries).advances.sum ∧
    ((runShape n r.iter_geometries).finished = true →
      r.header.file_length * 2 ≤ (runShape n r.iter_geometries).state.current_pos) := by
  refine ⟨rfl, rfl, ?_, ?_, ?_⟩
  · intro s s1 evs h
    obtain ⟨gevs, hdr, rest, hsrc, hs1, -, -⟩ := ShapeIterator.next_ok_inv s s1 evs h
    subst hs1
    exact ⟨gevs, hdr, rest, hsrc, rfl⟩
  · exact (runShape_spec n r.iter_geometries).1
  · exact (runShape_spec n r.iter_geometries).2.2

/-- Witness for C1 at a concrete consistent single-record stream: the run
terminates with cursor 112 = 100 + 12 = `file_length * 2`. -/
theorem iter_geometries_cursor_witness :
    (runShape 2 (Reader.iter_geometries ⟨[([3], .ok ⟨1, 2⟩)], ⟨56⟩, none, none⟩)).finished
      = true ∧
    (runShape 2 (Reader.iter_geometries
        ⟨[([3], .ok ⟨1, 2⟩)], ⟨56⟩, none, none⟩)).state.current_pos
      = HEADER_SIZE + (runShape 2 (Reader.iter_geometries
        ⟨[([3], .ok ⟨1, 2⟩)], ⟨56⟩, none, none⟩)).advances.sum ∧
    56 * 2 ≤ (runShape 2 (Reader.iter_geometries
        ⟨[([3], .ok ⟨1, 2⟩)], ⟨56⟩, none, none⟩)).state.current_pos ∧
    ∃ (gevs : List Nat) (hdr : RecordHeader)
      (rest : List (List Nat × Except Error RecordHeader)),
      (⟨[([3], .ok ⟨1, 2⟩)], 100, 112⟩ : ShapeIterator).source = (gevs, .ok hdr) :: rest ∧
      (⟨[], 112, 112⟩ : ShapeIterator).current_pos =
        (⟨[([3], .ok ⟨1, 2⟩)], 100, 112⟩ : ShapeIterator).current_pos +
          RecordHeader.SIZE + hdr.record_size * 2 := by
  have h := iter_geometries_cursor ⟨[([3], .ok ⟨1, 2⟩)], ⟨56⟩, none, none⟩ 2
  refine ⟨by decide, h.2.2.2.1, h.2.2.2.2 (by decide), ?_⟩
  exact h.2.2.1 ⟨[([3], .ok ⟨1, 2⟩)], 100, 112⟩ ⟨[], 112, 112⟩ [Event.geom 3] rfl

/-- C1 counterexample: a record in the stream declares a content length
that overshoots the declared file length (108 bytes); at termination the
header size plus the sum of the advances is 128, not `file_length * 2`. -/
theorem iter_geometries_cursor_cex :
    (runShape 2 (Reader.iter_geometries ⟨[([], .ok ⟨1, 10⟩)], ⟨54⟩, none, none⟩)).finished
      = true ∧
    HEADER_SIZE + (runShape 2 (Reader.iter_geometries
        ⟨[([], .ok ⟨1, 10⟩)], ⟨54⟩, none, none⟩)).advances.sum ≠ 54 * 2 := by
  decide

/-- C2 (amended): a feature-iterator step yields nothing precisely when the
attribute sequence is exhausted, or when the geometry iterator is exhausted
while an attribute record (whose properties processed successfully) was
consumed — attribute exhaustion is not the sole termination condition. -/
theorem shape_record_none_iff (p : Processor) (s : ShapeRecordIterator) :
    (s.next p).1 = none ↔
      s.dbf_reader = [] ∨
      ∃ rcd rest, s.dbf_reader = .ok rcd :: rest ∧ rcd.propResult = .ok () ∧
        s.shape_iter.file_length ≤ s.shape_iter.current_pos := by
  constructor
  · intro h
    rcases hn : s.next p with ⟨o, s1, evs⟩
    rw [hn] at h
    simp at h
    subst h
    exact ShapeRecordIterator.step_none_inv p s s1 evs hn
  · intro h
    rcases h with hnil | ⟨rcd, rest, hd, hp, hle⟩
    · rw [ShapeRecordIterator.next_dbf_nil p s hnil]
    · rw [ShapeRecordIterator.next_geom_none p s rcd rest s.shape_iter []
        hd hp (ShapeIterator.next_of_done s.shape_iter hle)]

/-- Witness for C2: the characterization applied at a concrete state with
the geometry iterator exhausted and one attribute record remaining: the
step yields no item. -/
theorem shape_record_none_iff_witness :
    ((⟨⟨[], 100, 100⟩, [.ok ⟨[2], .ok ()⟩], 1⟩ : ShapeRecordIterator).next
        ⟨fun _ => false⟩).1 = none :=
  (shape_record_none_iff ⟨fun _ => false⟩
      ⟨⟨[], 100, 100⟩, [.ok ⟨[2], .ok ()⟩], 1⟩).mpr
    (Or.inr ⟨⟨[2], .ok ()⟩, [], rfl, rfl, by decide⟩)

/-- C2 counterexample: with the geometry stream exhausted and one attribute
record remaining, the step yields nothing although the attribute sequence
is not exhausted. -/
theorem shape_record_none_cex :
    ((⟨⟨[], 100, 100⟩, [.ok ⟨[], .ok ()⟩], 0⟩ : ShapeRecordIterator).next
        ⟨fun _ => false⟩).1 = none ∧
    (⟨⟨[], 100, 100⟩, [.ok ⟨[], .ok ()⟩], 0⟩ : ShapeRecordIterator).dbf_reader ≠ [] :=
  ⟨rfl, by simp⟩

/-- C3 (amended): over a run of the feature iterator that stops at its
first empty step, in which every yielded step succeeded and which
terminated by attribute-sequence exhaustion, the processor receives exactly
one `dataset_begin` — the very first event — and exactly one `dataset_end`
— the very last event. -/
theorem dataset_lifecycle_once (n : Nat) (p : Processor) (s : ShapeRecordIterator)
    (h0 : s.featno = 0)
    (hend : (runRecord n p s).ending = .byDbf)
    (hok : ∀ x ∈ (runRecord n p s).results, x.isOk = true) :
    countE .dataset_begin (runRecord n p s).events = 1 ∧
    countE .dataset_end (runRecord n p s).events = 1 ∧
    (runRecord n p s).events.head? = some Event.dataset_begin ∧
    ∃ pre, (runRecord n p s).events = pre ++ [Event.dataset_end] := by
  obtain ⟨c1, c2, hpre⟩ := runRecord_dataset_counts n s p hend hok
  refine ⟨by rw [c2]; simp [h0], c1, ?_, hpre⟩
  cases n with
  | zero => simp [runRecord] at hend
  | succ n =>
    rcases hs : s.next p with ⟨o, s1, evs⟩
    have hhead := ShapeRecordIterator.next_head p s h0
    rw [hs] at hhead
    cases o with
    | none =>
      have hev : (runRecord (n + 1) p s).events = evs := by
        simp [runRecord, hs]
      rw [hev]
      exact hhead
    | some r =>
      have hev : (runRecord (n + 1) p s).events = evs ++ (runRecord n p s1).events := by
        simp [runRecord, hs]
      rw [hev]
      rcases evs with _ | ⟨a, tl⟩
      · simp at hhead
      · simp only [List.head?_cons, Option.some.injEq] at hhead
        subst hhead
        rfl

/-- Witness for C3 at a concrete one-feature dataset. -/
theorem dataset_lifecycle_once_witness :
    countE .dataset_begin (runRecord 3 ⟨fun _ => false⟩
      ⟨⟨[([3], .ok ⟨1, 2⟩)], 100, 112⟩, [.ok ⟨[7], .ok ()⟩], 0⟩).events = 1 ∧
    countE .dataset_end (runRecord 3 ⟨fun _ => false⟩
      ⟨⟨[([3], .ok ⟨1, 2⟩)], 100, 112⟩, [.ok ⟨[7], .ok ()⟩], 0⟩).events = 1 ∧
    (runRecord 3 ⟨fun _ => false⟩
      ⟨⟨[([3], .ok ⟨1, 2⟩)], 100, 112⟩, [.ok ⟨[7], .ok ()⟩], 0⟩).events.head?
      = some Event.dataset_begin ∧
    ∃ pre, (runRecord 3 ⟨fun _ => false⟩
      ⟨⟨[([3], .ok ⟨1, 2⟩)], 100, 112⟩, [.ok ⟨[7], .ok ()⟩], 0⟩).events
      = pre ++ [Event.dataset_end] :=
  dataset_lifecycle_once 3 ⟨fun _ => false⟩
    ⟨⟨[([3], .ok ⟨1, 2⟩)], 100, 112⟩, [.ok ⟨[7], .ok ()⟩], 0⟩
    rfl (by decide) (by decide)

/-- C3 counterexample: an attribute decode error on the first step leaves
`featno` at 0, so the following call emits `dataset_begin` again — two
calls produce two `dataset_begin` events, not exactly one. -/
theorem dataset_lifecycle_once_cex :
    countE .dataset_begin
      (((⟨⟨[], 100, 100⟩, [.error 5, .error 6], 0⟩ : ShapeRecordIterator).next
          ⟨fun _ => false⟩).2.2 ++
        ((((⟨⟨[], 100, 100⟩, [.error 5, .error 6], 0⟩ : ShapeRecordIterator).next
          ⟨fun _ => false⟩).2.1).next ⟨fun _ => false⟩).2.2) = 2 := by
  decide

/-- C4 (amended): a step that returns an error leaves the cursor and total
length unchanged and does not exhaust the iterator: the cursor is still
below the total length, so the following call yields another item rather
than ending the sequence; previously yielded items are unaffected. -/
theorem shape_error_step (s s1 : ShapeIterator) (e : Error) (evs : List Event)
    (h : s.next = (some (.error e), s1, evs)) :
    s1.current_pos = s.current_pos ∧ s1.file_length = s.file_length ∧
    s1.current_pos < s1.file_length ∧ (s1.next).1.isSome = true := by
  obtain ⟨h1, h2, h3⟩ := ShapeIterator.next_err_inv s s1 e evs h
  have h4 : s1.current_pos < s1.file_length := by omega
  exact ⟨h1, h2, h4, ShapeIterator.next_isSome s1 h4⟩

/-- Witness for C4: a concrete error step keeps the cursor at 100 and the
following call yields another item. -/
theorem shape_error_step_witness :
    (⟨[([], .ok ⟨2, 1⟩)], 100, 150⟩ : ShapeIterator).current_pos =
      (⟨[([], .error (.ShpError 9)), ([], .ok ⟨2, 1⟩)], 100, 150⟩ :
        ShapeIterator).current_pos ∧
    (⟨[([], .ok ⟨2, 1⟩)], 100, 150⟩ : ShapeIterator).file_length =
      (⟨[([], .error (.ShpError 9)), ([], .ok ⟨2, 1⟩)], 100, 150⟩ :
        ShapeIterator).file_length ∧
    (⟨[([], .ok ⟨2, 1⟩)], 100, 150⟩ : ShapeIterator).current_pos <
      (⟨[([], .ok ⟨2, 1⟩)], 100, 150⟩ : ShapeIterator).file_length ∧
    ((⟨[([], .ok ⟨2, 1⟩)], 100, 150⟩ : ShapeIterator).next).1.isSome = true :=
  shape_error_step ⟨[([], .error (.ShpError 9)), ([], .ok ⟨2, 1⟩)], 100, 150⟩
    ⟨[([], .ok ⟨2, 1⟩)], 100, 150⟩ (.ShpError 9) [] rfl

/-- C4 counterexample: a step returns an error, and the very next call
yields a further item (a successful one), so the error did not end the
sequence. -/
theorem shape_error_step_cex :
    (ShapeIterator.next ⟨[([], .error (.ShpError 1)), ([], .ok ⟨2, 3⟩)], 100, 200⟩).1
      = some (.error (.ShpError 1)) ∧
    (ShapeIterator.next (ShapeIterator.next
        ⟨[([], .error (.ShpError 1)), ([], .ok ⟨2, 3⟩)], 100, 200⟩).2.1).1
      = some (.ok ()) :=
  ⟨rfl, rfl⟩

/-- C5: the feature-iterator step does not depend on the results of the
lifecycle callbacks — two processors differing arbitrarily in which
lifecycle calls fail produce identical step outcomes, successor states and
event traces — and every error the step returns stems from the attribute
decoder, from the property processing, or from the geometry decode step. -/
theorem lifecycle_errors_discarded (p q : Processor) (s : ShapeRecordIterator) :
    s.next p = s.next q ∧
    ∀ (e : Error) (s1 : ShapeRecordIterator) (evs : List Event),
      s.next p = (some (.error e), s1, evs) →
      (∃ d rest, s.dbf_reader = .error d :: rest ∧ e = .DbaseError d) ∨
      (∃ rcd rest g, s.dbf_reader = .ok rcd :: rest ∧ rcd.propResult = .error g ∧
        e = .GeozeroError g) ∨
      (∃ rcd rest si gevs, s.dbf_reader = .ok rcd :: rest ∧ rcd.propResult = .ok () ∧
        s.shape_iter.next = (some (.error e), si, gevs)) :=
  ⟨ShapeRecordIterator.next_indep p q s,
   fun e s1 evs h => (ShapeRecordIterator.step_err_inv p s e s1 evs h).2⟩

/-- Witness for C5: a processor whose lifecycle callbacks all fail and one
whose never fail give the same step on a concrete state, and the error the
step returns is the attribute decoder's. -/
theorem lifecycle_errors_discarded_witness :
    ShapeRecordIterator.next ⟨fun _ => true⟩ ⟨⟨[], 100, 100⟩, [.error 5], 0⟩ =
      ShapeRecordIterator.next ⟨fun _ => false⟩ ⟨⟨[], 100, 100⟩, [.error 5], 0⟩ ∧
    ((∃ d rest,
        (⟨⟨[], 100, 100⟩, [.error 5], 0⟩ : ShapeRecordIterator).dbf_reader
          = .error d :: rest ∧ Error.DbaseError 5 = .DbaseError d) ∨
     (∃ rcd rest g,
        (⟨⟨[], 100, 100⟩, [.error 5], 0⟩ : ShapeRecordIterator).dbf_reader
          = .ok rcd :: rest ∧ rcd.propResult = .error g ∧
        Error.DbaseError 5 = .GeozeroError g) ∨
     (∃ rcd rest si gevs,
        (⟨⟨[], 100, 100⟩, [.error 5], 0⟩ : ShapeRecordIterator).dbf_reader
          = .ok rcd :: rest ∧ rcd.propResult = .ok () ∧
        (⟨⟨[], 100, 100⟩, [.error 5], 0⟩ :
          ShapeRecordIterator).shape_iter.next
          = (some (.error (Error.DbaseError 5)), si, gevs))) := by
  have h := lifecycle_errors_discarded ⟨fun _ => true⟩ ⟨fun _ => false⟩
    ⟨⟨[], 100, 100⟩, [.error 5], 0⟩
  exact ⟨h.1, h.2 (.DbaseError 5) ⟨⟨[], 100, 100⟩, [], 0⟩ [Event.dataset_begin] rfl⟩

/-- C6: on every successful feature step the processor receives, in this
order: `dataset_begin` exactly when this is a first step, `feature_begin`
with the current ordinal, `properties_begin`, the record's property
callbacks, `properties_end`, `geometry_begin`, the geometry callbacks of
exactly one geometry-iterator step, `geometry_end`, `feature_end` with the
same ordinal; the ordinal is 0 on a freshly built iterator and increases by
exactly one on the successful step. -/
theorem feature_step_sequence (p : Processor) (s : ShapeRecordIterator)
    (rcd : Record) (s1 : ShapeRecordIterator) (evs : List Event)
    (h : s.next p = (some (.ok rcd), s1, evs)) :
    s1.featno = s.featno + 1 ∧
    (∀ (r : Reader) (it : ShapeRecordIterator), r.iter_features = .ok it →
      it.featno = 0) ∧
    ∃ (gl : List Nat) (si : ShapeIterator),
      s.shape_iter.next = (some (.ok ()), si, gl.map Event.geom) ∧
      evs = (if s.featno = 0 then [Event.dataset_begin] else []) ++
        [Event.feature_begin s.featno] ++ [Event.properties_begin] ++
        rcd.propEvents.map Event.property ++ [Event.properties_end] ++
        [Event.geometry_begin] ++ gl.map Event.geom ++
        [Event.geometry_end] ++ [Event.feature_end s.featno] := by
  obtain ⟨rest, gl, si, hd, hp, hg, hs1, hevs⟩ :=
    ShapeRecordIterator.step_ok_inv p s rcd s1 evs h
  exact ⟨by rw [hs1], fun r it hit => iter_features_featno r it hit, gl, si, hg, hevs⟩

/-- Witness for C6 at a concrete first feature step. -/
theorem feature_step_sequence_witness :
    (⟨⟨[], 112, 112⟩, [], 1⟩ : ShapeRecordIterator).featno =
      (⟨⟨[([3], .ok ⟨1, 2⟩)], 100, 112⟩, [.ok ⟨[7], .ok ()⟩], 0⟩ :
        ShapeRecordIterator).featno + 1 ∧
    (∀ (r : Reader) (it : ShapeRecordIterator), r.iter_features = .ok it →
      it.featno = 0) ∧
    ∃ (gl : List Nat) (si : ShapeIterator),
      (⟨⟨[([3], .ok ⟨1, 2⟩)], 100, 112⟩, [.ok ⟨[7], .ok ()⟩], 0⟩ :
        ShapeRecordIterator).shape_iter.next = (some (.ok ()), si, gl.map Event.geom) ∧
      [Event.dataset_begin, Event.feature_begin 0, Event.properties_begin,
        Event.property 7, Event.properties_end, Event.geometry_begin,
        Event.geom 3, Event.geometry_end, Event.feature_end 0] =
        (if (⟨⟨[([3], .ok ⟨1, 2⟩)], 100, 112⟩, [.ok ⟨[7], .ok ()⟩], 0⟩ :
          ShapeRecordIterator).featno = 0 then [Event.dataset_begin] else []) ++
        [Event.feature_begin 0] ++ [Event.properties_begin] ++
        (Record.propEvents ⟨[7], .ok ()⟩).map Event.property ++
        [Event.properties_end] ++ [Event.geometry_begin] ++ gl.map Event.geom ++
        [Event.geometry_end] ++ [Event.feature_end 0] :=
  feature_step_sequence ⟨fun _ => false⟩
    ⟨⟨[([3], .ok ⟨1, 2⟩)], 100, 112⟩, [.ok ⟨[7], .ok ()⟩], 0⟩
    ⟨[7], .ok ()⟩ ⟨⟨[], 112, 112⟩, [], 1⟩
    [Event.dataset_begin, Event.feature_begin 0, Event.properties_begin,
      Event.property 7, Event.properties_end, Event.geometry_begin,
      Event.geom 3, Event.geometry_end, Event.feature_end 0] rfl

/-- C7: once the cursor has reached or passed the total length, the step
yields nothing, changes nothing and reads nothing, and every later step
likewise yields nothing, leaves the state (the source included) intact and
emits no event. -/
theorem shape_iter_fused (s : ShapeIterator) (h : s.file_length ≤ s.current_pos) :
    s.next = (none, s, []) ∧
    ∀ n, (runShape n s).results = [] ∧ (runShape n s).state = s ∧
      (runShape n s).events = [] := by
  have h0 := ShapeIterator.next_of_done s h
  refine ⟨h0, fun n => ?_⟩
  cases n with
  | zero => exact ⟨rfl, rfl, rfl⟩
  | succ n =>
    have hrun : runShape (n + 1) s = ⟨[], [], true, s, []⟩ := by
      simp [runShape, h0]
    rw [hrun]
    exact ⟨rfl, rfl, rfl⟩

/-- Witness for C7 at a concrete exhausted iterator whose source still
holds an unread record. -/
theorem shape_iter_fused_witness :
    ShapeIterator.next ⟨[([5], .ok ⟨1, 1⟩)], 120, 100⟩ =
      (none, ⟨[([5], .ok ⟨1, 1⟩)], 120, 100⟩, []) ∧
    (runShape 4 (⟨[([5], .ok ⟨1, 1⟩)], 120, 100⟩ : ShapeIterator)).results = [] ∧
    (runShape 4 (⟨[([5], .ok ⟨1, 1⟩)], 120, 100⟩ : ShapeIterator)).state =
      ⟨[([5], .ok ⟨1, 1⟩)], 120, 100⟩ ∧
    (runShape 4 (⟨[([5], .ok ⟨1, 1⟩)], 120, 100⟩ : ShapeIterator)).events = [] := by
  have h := shape_iter_fused ⟨[([5], .ok ⟨1, 1⟩)], 120, 100⟩ (by decide)
  exact ⟨h.1, (h.2 4).1, (h.2 4).2.1, (h.2 4).2.2⟩

/-- C8: on a reader with no attribute source attached, building the
combined feature iterator and reading the records both fail with the
missing-collaborator error, and the outcome is the same whatever the
geometry source holds — the geometry source is neither read nor mutated. -/
theorem missing_dbf_error (r : Reader) (h : r.dbf_reader = none) :
    r.iter_features = .error .MissingDbf ∧
    r.read_records = .error .MissingDbf ∧
    ∀ src, Reader.iter_features
      { source := src, header := r.header, shapes_index := r.shapes_index,
        dbf_reader := r.dbf_reader } = .error .MissingDbf := by
  refine ⟨?_, ?_, fun src => ?_⟩ <;>
    simp [Reader.iter_features, Reader.read_records, h]

/-- Witness for C8 at a concrete reader with no dbase source. -/
theorem missing_dbf_error_witness :
    (⟨[([1], .ok ⟨1, 1⟩)], ⟨60⟩, none, none⟩ : Reader).dbf_reader = none ∧
    (⟨[([1], .ok ⟨1, 1⟩)], ⟨60⟩, none, none⟩ : Reader).iter_features
      = .error .MissingDbf ∧
    (⟨[([1], .ok ⟨1, 1⟩)], ⟨60⟩, none, none⟩ : Reader).read_records
      = .error .MissingDbf :=
  ⟨rfl,
    (missing_dbf_error ⟨[([1], .ok ⟨1, 1⟩)], ⟨60⟩, none, none⟩ rfl).1,
    (missing_dbf_error ⟨[([1], .ok ⟨1, 1⟩)], ⟨60⟩, none, none⟩ rfl).2.1⟩

/-- C9: when the geometry iterator is already exhausted but attribute
records remain, the next feature step consumes one attribute record, emits
`dataset_begin` (first step only), `feature_begin`, `properties_begin`, the
property callbacks, `properties_end` and `geometry_begin`, and then yields
nothing: the consumed record is discarded, and no `geometry_end`, no
`feature_end` and no `dataset_end` is emitted. -/
theorem geom_exhausted_midstep (p : Processor) (s : ShapeRecordIterator)
    (rcd : Record) (rest : List (Except Nat Record))
    (hdbf : s.dbf_reader = .ok rcd :: rest)
    (hprop : rcd.propResult = .ok ())
    (hgeo : s.shape_iter.file_length ≤ s.shape_iter.current_pos) :
    s.next p = (none, { s with dbf_reader := rest },
      (if s.featno = 0 then [Event.dataset_begin] else []) ++
        [Event.feature_begin s.featno] ++ [Event.properties_begin] ++
        rcd.propEvents.map Event.property ++ [Event.properties_end] ++
        [Event.geometry_begin]) ∧
    Event.geometry_end ∉ (s.next p).2.2 ∧
    (∀ k, Event.feature_end k ∉ (s.next p).2.2) ∧
    Event.dataset_end ∉ (s.next p).2.2 := by
  have hn := ShapeIterator.next_of_done s.shape_iter hgeo
  have heq := ShapeRecordIterator.next_geom_none p s rcd rest s.shape_iter []
    hdbf hprop hn
  rw [heq]
  refine ⟨by simp, ?_, ?_, ?_⟩ <;>
    by_cases hf : s.featno = 0 <;> simp [hf]

/-- Witness for C9: an exhausted geometry stream with one attribute record
left; the step consumes it, stops after `geometry_begin`, and yields
nothing. -/
theorem geom_exhausted_midstep_witness :
    ShapeRecordIterator.next ⟨fun _ => false⟩
        ⟨⟨[], 100, 100⟩, [.ok ⟨[4], .ok ()⟩], 2⟩ =
      (none, ⟨⟨[], 100, 100⟩, [], 2⟩,
        [Event.feature_begin 2, Event.properties_begin, Event.property 4,
          Event.properties_end, Event.geometry_begin]) ∧
    Event.geometry_end ∉ (ShapeRecordIterator.next ⟨fun _ => false⟩
      ⟨⟨[], 100, 100⟩, [.ok ⟨[4], .ok ()⟩], 2⟩).2.2 ∧
    (∀ k, Event.feature_end k ∉ (ShapeRecordIterator.next ⟨fun _ => false⟩
      ⟨⟨[], 100, 100⟩, [.ok ⟨[4], .ok ()⟩], 2⟩).2.2) ∧
    Event.dataset_end ∉ (ShapeRecordIterator.next ⟨fun _ => false⟩
      ⟨⟨[], 100, 100⟩, [.ok ⟨[4], .ok ()⟩], 2⟩).2.2 :=
  geom_exhausted_midstep ⟨fun _ => false⟩
    ⟨⟨[], 100, 100⟩, [.ok ⟨[4], .ok ()⟩], 2⟩ ⟨[4], .ok ()⟩ [] rfl rfl (by decide)

/-- C10: an error step leaves the iterator counters unchanged: a geometry
step returning an error leaves `current_pos` as it was, and a feature step
returning an error leaves `featno` as it was, so a following step reuses
the same feature ordinal. -/
theorem error_leaves_counters (s s1 : ShapeIterator) (e1 : Error) (evs1 : List Event)
    (p : Processor) (t t1 : ShapeRecordIterator) (e2 : Error) (evs2 : List Event) :
    (s.next = (some (.error e1), s1, evs1) → s1.current_pos = s.current_pos) ∧
    (t.next p = (some (.error e2), t1, evs2) → t1.featno = t.featno) :=
  ⟨fun h => (ShapeIterator.next_err_inv s s1 e1 evs1 h).1,
   fun h => (ShapeRecordIterator.step_err_inv p t e2 t1 evs2 h).1⟩

/-- Witness for C10: a concrete geometry decode error keeps the cursor at
100, and a concrete attribute decode error keeps the ordinal at 3. -/
theorem error_leaves_counters_witness :
    (⟨[([], .ok ⟨2, 3⟩)], 100, 200⟩ : ShapeIterator).current_pos =
      (⟨[([], .error (.ShpError 1)), ([], .ok ⟨2, 3⟩)], 100, 200⟩ :
        ShapeIterator).current_pos ∧
    (⟨⟨[], 100, 100⟩, [], 3⟩ : ShapeRecordIterator).featno =
      (⟨⟨[], 100, 100⟩, [.error 6], 3⟩ : ShapeRecordIterator).featno := by
  have h := error_leaves_counters
    ⟨[([], .error (.ShpError 1)), ([], .ok ⟨2, 3⟩)], 100, 200⟩
    ⟨[([], .ok ⟨2, 3⟩)], 100, 200⟩ (.ShpError 1) []
    ⟨fun _ => false⟩ ⟨⟨[], 100, 100⟩, [.error 6], 3⟩ ⟨⟨[], 100, 100⟩, [], 3⟩
    (.DbaseError 6) []
  exact ⟨h.1 rfl, h.2 rfl⟩

end GeozeroShp
